import Mathlib

/-!
Shallow embedding of the chaos-to-formed animation core of the particle-tree
renderer.  The embedding covers the spatial distribution functions of
src/math.ts, the damped progress controller shared by the instanced-mesh
components (src/Ornaments.tsx, src/Trunk.tsx, the leaves and the photo
cards), the fixed-factor progress update used by the particle fields
(src/Foliage.tsx and the snow field), the per-frame render formulas of the
ornament and foliage pipelines, and the photo-card population operations
(the Polaroids component and the removePhoto handler of the app shell).
JavaScript numbers are modelled as real numbers.
-/

noncomputable section

/-- Three-component vector, modelling THREE.Vector3 with real coordinates. -/
@[ext]
structure Vec3 where
  x : ℝ
  y : ℝ
  z : ℝ

/-- THREE.MathUtils.lerp, the linear interpolation x + (y - x) * t. -/
def lerp (x y t : ℝ) : ℝ := x + (y - x) * t

/-- THREE.MathUtils.damp, the frame-rate independent exponential approach
used by the instanced-mesh components: lerp(x, y, 1 - exp(-lambda * dt)). -/
def damp (x y lam dt : ℝ) : ℝ := lerp x y (1 - Real.exp (-lam * dt))

/-- The ease-out-cubic curve 1 - (1 - t)^3 applied to raw progress before
spatial interpolation (src/Ornaments.tsx line 93, src/Foliage.tsx vertex
shader, src/Trunk.tsx line 71). -/
def ease (t : ℝ) : ℝ := 1 - (1 - t) ^ 3

/-- Component-wise lerp of two vectors, modelling
THREE.Vector3.lerpVectors(a, b, t). -/
def lerpV (a b : Vec3) (t : ℝ) : Vec3 :=
  ⟨lerp a.x b.x t, lerp a.y b.y t, lerp a.z b.z t⟩

/-- Euclidean magnitude of a vector. -/
def magV (p : Vec3) : ℝ := Real.sqrt (p.x ^ 2 + p.y ^ 2 + p.z ^ 2)

/-- randomSpherePoint of src/math.ts lines 3-14 with the three
Math.random() draws made explicit as u, v, w: an isotropic direction from
theta = 2*pi*u and phi = acos(2*v - 1), radial distance cbrt(w) * radius. -/
def randomSpherePoint (radius u v w : ℝ) : Vec3 :=
  let theta := 2 * Real.pi * u
  let phi := Real.arccos (2 * v - 1)
  let r := w ^ ((1 : ℝ) / 3) * radius
  ⟨r * Real.sin phi * Real.cos theta, r * Real.sin phi * Real.sin theta,
    r * Real.cos phi⟩

/-- getTreeSurfacePosition of src/math.ts lines 35-55 with the two
Math.random() draws made explicit as u (height) and v (azimuth):
height fraction 1 - sqrt(u), radius tapering linearly to 0 at the apex,
theta = v * pi * 2. -/
def getTreeSurfacePosition (radiusBase height yOffset u v : ℝ) : Vec3 :=
  let hFrac := 1 - Real.sqrt u
  let yv := height * hFrac
  let r := radiusBase * (1 - hFrac)
  let theta := v * (Real.pi * 2)
  ⟨r * Real.cos theta, yv + yOffset, r * Real.sin theta⟩

/-- Per-instance base scale draw of src/Ornaments.tsx line 49:
Math.random() * (scaleRange1 - scaleRange0) + scaleRange0. -/
def ornamentScale (u smin smax : ℝ) : ℝ := u * (smax - smin) + smin

/-- Rendered scale of an ornament instance ignoring the pulse modulation
factor (src/Ornaments.tsx line 121): d.scale * (0.8 + 0.2 * easedT). -/
def ornamentFinalScale (base t : ℝ) : ℝ := base * (0.8 + 0.2 * ease t)

/-- scaleRange of the 60-instance bell population configured in the scene
composer (type cone, count 60). -/
def bellScaleRange : ℝ × ℝ := (0.25, 0.4)

/-- count of the bell population configured in the scene composer. -/
def bellCount : ℕ := 60

/-- Rendered position of one ornament instance per tick
(src/Ornaments.tsx lines 91-113): the chaos-to-target lerp under eased
progress, plus the wobble sin(time * 2 + phase) * 0.05 added to the y
coordinate whenever raw progress exceeds 0.8. -/
def ornamentRenderPos (chaos target : Vec3) (phase t time : ℝ) : Vec3 :=
  let easedT := ease t
  let base := lerpV chaos target easedT
  if t > 0.8 then
    ⟨base.x, base.y + Real.sin (time * 2 + phase) * 0.05, base.z⟩
  else
    base

/-- Rendered position of one foliage point per frame, from the vertex
shader of src/Foliage.tsx lines 29-52: mix(aChaos, aTarget, easedT) with
the breathing offset sin(uTime * 0.5 + aRandom * 10.0) * 0.1 * easedT
added to y. -/
def foliageVertexPos (aChaos aTarget : Vec3) (aRandom uProgress uTime : ℝ) :
    Vec3 :=
  let t := ease uProgress
  let pos := lerpV aChaos aTarget t
  ⟨pos.x, pos.y + Real.sin (uTime * 0.5 + aRandom * 10) * 0.1 * t, pos.z⟩

/-- Per-frame progress update of the particle fields (src/Foliage.tsx
lines 164-170 and the snow field): a fixed-factor lerp toward the mode
target, lerp(value, targetProgress, 0.02).  The frame delta received by
useFrame is not consulted. -/
def foliageProgressUpdate (p target delta : ℝ) : ℝ := lerp p target 0.02

/-- The two-state mode signal set by the external UI. -/
inductive TreeMode where
  | CHAOS
  | FORMED
deriving DecidableEq

/-- The mode-relevant application state of the app shell. -/
structure AppState where
  mode : TreeMode
  photos : List String

/-- Assignment of the mode signal (the setMode state setter). -/
def setMode (m : TreeMode) (s : AppState) : AppState := { s with mode := m }

/-- The toggleMode handler of the app shell: flips CHAOS and FORMED. -/
def toggleMode (s : AppState) : AppState :=
  setMode (if s.mode = TreeMode.CHAOS then TreeMode.FORMED else TreeMode.CHAOS) s

/-- Per-tick progress update of the ornaments component
(src/Ornaments.tsx lines 85-89): damp toward 1 when the mode is FORMED
else toward 0, with damping speed 1.0 / weight over the frame delta. -/
def ornamentsProgressTick (mode : TreeMode) (weight p delta : ℝ) : ℝ :=
  damp p (if mode = TreeMode.FORMED then 1 else 0) (1.0 / weight) delta

/-- Progress after a sequence of frames with a fixed mode: each frame
advances by ornamentsProgressTick over that frame's delta. -/
def progressTrajectory (mode : TreeMode) (weight p0 : ℝ) (ds : List ℝ) : ℝ :=
  ds.foldl (fun p d => ornamentsProgressTick mode weight p d) p0

/-- Progress after a sequence of damp ticks, each tick carrying its
attractor (first component) and its elapsed time (second component). -/
def dampTrajectory (lam p0 : ℝ) (steps : List (ℝ × ℝ)) : ℝ :=
  steps.foldl (fun p s => damp p s.1 lam s.2) p0

/-- Progress after a sequence of fixed-factor particle-field ticks, each
tick carrying its attractor and the (ignored) frame delta. -/
def foliageTrajectory (p0 : ℝ) (steps : List (ℝ × ℝ)) : ℝ :=
  steps.foldl (fun p s => foliageProgressUpdate p s.1 s.2) p0

/-- Per-frame progress update of the tree lights (TreeLights.useFrame):
lerp(value, targetProg, delta * 1.0), a lerp whose factor is the raw
frame delta itself. -/
def lightsProgressUpdate (p target delta : ℝ) : ℝ := lerp p target (delta * 1.0)

/-- Progress after a sequence of tree-lights ticks, each tick carrying
its attractor and its frame delta. -/
def lightsTrajectory (p0 : ℝ) (steps : List (ℝ × ℝ)) : ℝ :=
  steps.foldl (fun p s => lightsProgressUpdate p s.1 s.2) p0

/-- Progress after a sequence of damp ticks all attracted to 1 (mode held
FORMED), each list entry one frame's elapsed time. -/
def formedDampTrajectory (lam p0 : ℝ) (ds : List ℝ) : ℝ :=
  ds.foldl (fun p d => damp p 1 lam d) p0

/-- One photo card of the Polaroids population: the image reference that
keys the instance, the chaos position drawn once at mount
(randomSpherePoint(14)), and the per-instance random constants drawn once
at mount. -/
structure PolaroidCard where
  url : String
  chaosPos : Vec3
  rotationOffset : ℝ
  swaySpeed : ℝ

/-- The removePhoto handler of the app shell:
prev.filter((_, index) => index !== indexToRemove).  Survivors keep their
list entries; entries after the removed index shift down by one. -/
def removePhoto {α : Type} : List α → ℕ → List α
  | [], _ => []
  | _ :: xs, 0 => xs
  | x :: xs, k + 1 => x :: removePhoto xs k

/-- Target position of the photo card in slot index of a population of
total cards (PolaroidItem targetPos): height fraction 1 - index/max(total,1),
deterministic per-index height offset (sin(index * 12.34) + 1) * 1.0,
radius max(0.5, 4.8 * (1 - yPos/9)), spiral angle
index * 0.8 + index^2 * 0.05, with the -5 y offset. -/
def polaroidTargetPos (index total : ℕ) : Vec3 :=
  let radiusBase : ℝ := 4.8
  let treeHeight : ℝ := 9.0
  let hFrac : ℝ := 1 - (index : ℝ) / max (total : ℝ) 1
  let randomHeightOffset : ℝ := (Real.sin ((index : ℝ) * 12.34) + 1) * 1.0
  let yPos : ℝ := hFrac * treeHeight * 0.8 + randomHeightOffset
  let rAtHeight : ℝ := max 0.5 (radiusBase * (1 - yPos / treeHeight))
  let angle : ℝ := (index : ℝ) * 0.8 + (index : ℝ) * (index : ℝ) * 0.05
  ⟨rAtHeight * Real.cos angle, yPos - 5, rAtHeight * Real.sin angle⟩

/-- A concrete three-card photo population used to instantiate the
stability theorem. -/
def samplePopulation : List PolaroidCard :=
  [⟨"a", ⟨1, 0, 0⟩, 0.1, 0.5⟩, ⟨"b", ⟨0, 2, 0⟩, 0.2, 0.6⟩,
    ⟨"c", ⟨0, 0, 3⟩, 0.3, 0.7⟩]

/-- Composing two damp steps over elapsed times d1 and d2 equals one damp
step over d1 + d2. -/
theorem damp_add (p y lam d1 d2 : ℝ) :
    damp (damp p y lam d1) y lam d2 = damp p y lam (d1 + d2) := by
  simp only [damp, lerp]
  have h : Real.exp (-lam * (d1 + d2))
      = Real.exp (-lam * d1) * Real.exp (-lam * d2) := by
    rw [← Real.exp_add]; ring_nf
  rw [h]; ring

/-- A sequence of damp ticks all attracted to 1 composes into a single
damp step over the total elapsed time. -/
theorem formedDampTrajectory_eq_damp_sum (lam : ℝ) :
    ∀ (ds : List ℝ) (p0 : ℝ),
      formedDampTrajectory lam p0 ds = damp p0 1 lam ds.sum := by
  intro ds
  induction ds with
  | nil =>
    intro p0
    simp only [formedDampTrajectory, List.foldl_nil, List.sum_nil, damp, lerp]
    norm_num [Real.exp_zero]
  | cons d ds ih =>
    intro p0
    simp only [formedDampTrajectory, List.foldl_cons, List.sum_cons] at ih ⊢
    rw [ih (damp p0 1 lam d), damp_add]

/-- C2 (amended): the damp-based per-tick progress update of the
instanced-mesh components is time-subdivision independent: updating over
d1 and then d2 equals one update over d1 + d2.  The particle fields
(Foliage, Snow) instead apply a fixed lerp factor of 0.02 per frame and
ignore the frame delta entirely, so their progress depends on the frame
count, not on elapsed real time. -/
theorem progress_update_time_subdivision :
    (∀ (p y lam d1 d2 : ℝ),
        damp (damp p y lam d1) y lam d2 = damp p y lam (d1 + d2)) ∧
    (∀ (p target d1 d2 : ℝ),
        foliageProgressUpdate p target d1 = foliageProgressUpdate p target d2) :=
  ⟨damp_add, fun _ _ _ _ => rfl⟩

/-- C2 counterexample: for the Foliage progress update, advancing over two
frames of 0.5 seconds does not equal advancing over one frame of 1 second,
so the particle-field progress trajectory is not a function of elapsed
real time alone. -/
theorem foliageProgressUpdate_not_time_additive :
    foliageProgressUpdate (foliageProgressUpdate 0 1 0.5) 1 0.5
      ≠ foliageProgressUpdate 0 1 (0.5 + 0.5) := by
  simp only [foliageProgressUpdate, lerp]
  norm_num

/-- C7: starting from progress 0 with damping constant 1.2 (the Trunk and
photo-card controller), holding the mode FORMED (attractor 1) over frames
totalling 5 seconds of elapsed time yields progress strictly above 0.99. -/
theorem damp_five_seconds_exceeds_099 :
    ∀ ds : List ℝ, (∀ d ∈ ds, 0 ≤ d) → ds.sum = 5 →
      0.99 < formedDampTrajectory 1.2 0 ds := by
  intro ds _ hsum
  rw [formedDampTrajectory_eq_damp_sum, hsum]
  simp only [damp, lerp]
  have h6 : Real.exp (-1.2 * 5) = (Real.exp 1)⁻¹ ^ (6 : ℕ) := by
    rw [← Real.exp_neg, ← Real.exp_nat_mul]
    norm_num
  have hgt : (2.7182818283 : ℝ) < Real.exp 1 := Real.exp_one_gt_d9
  have hpos : (0 : ℝ) < Real.exp 1 := Real.exp_pos 1
  have hinv : (Real.exp 1)⁻¹ < 2.7182818283⁻¹ := by
    exact inv_lt_inv_of_lt (by norm_num) hgt
  have hinvpos : (0 : ℝ) < (Real.exp 1)⁻¹ := inv_pos.mpr hpos
  have hpow : (Real.exp 1)⁻¹ ^ (6 : ℕ) < 2.7182818283⁻¹ ^ (6 : ℕ) := by
    exact pow_lt_pow_left hinv (le_of_lt hinvpos) (by norm_num)
  have hlt : (2.7182818283 : ℝ)⁻¹ ^ (6 : ℕ) < 0.01 := by
    rw [inv_pow]
    rw [inv_lt (by positivity) (by norm_num)]
    norm_num
  rw [h6]
  nlinarith

/-- C7 witness: the subdivision 2 + 3 = 5 seconds. -/
theorem damp_five_seconds_exceeds_099_witness :
    (∀ d ∈ ([2, 3] : List ℝ), 0 ≤ d) ∧ ([2, 3] : List ℝ).sum = 5 ∧
      0.99 < formedDampTrajectory 1.2 0 [2, 3] :=
  ⟨by intro d hd; simp at hd; rcases hd with h | h <;> norm_num [h],
    by norm_num,
    damp_five_seconds_exceeds_099 [2, 3]
      (by intro d hd; simp at hd; rcases hd with h | h <;> norm_num [h])
      (by norm_num)⟩

/-- Assigning the mode twice is the same state as assigning it once. -/
theorem setMode_idem (m : TreeMode) (s : AppState) :
    setMode m (setMode m s) = setMode m s := rfl

/-- C10: setting the mode signal twice to the same value yields the very
same state as setting it once, and hence the identical progress
trajectory, because the per-tick update reads only the current mode
value, the previous progress and the frame delta. -/
theorem setMode_idempotent_trajectory :
    (∀ (m : TreeMode) (s : AppState), setMode m (setMode m s) = setMode m s) ∧
    (∀ (m : TreeMode) (s : AppState) (weight p0 : ℝ) (ds : List ℝ),
        progressTrajectory (setMode m (setMode m s)).mode weight p0 ds
          = progressTrajectory (setMode m s).mode weight p0 ds) :=
  ⟨setMode_idem, fun m s _ _ _ => by rw [setMode_idem]⟩

/-- C1 counterexample: an ornament instance at progress exactly 1 (with
chaos = target = the origin, phase pi/2, clock time 0) renders at
y = 0.05, not at its target position: because raw progress exceeds 0.8
the formed-state wobble sin(time * 2 + phase) * 0.05 is added on top of
the interpolated position, so the rendered position at progress 1 is not
exactly the target position. -/
theorem ornamentRenderPos_formed_wobble_ne_target :
    ornamentRenderPos ⟨0, 0, 0⟩ ⟨0, 0, 0⟩ (Real.pi / 2) 1 0 ≠ ⟨0, 0, 0⟩ := by
  intro h
  have hy := congrArg Vec3.y h
  simp only [ornamentRenderPos, lerpV, lerp, ease] at hy
  rw [if_pos (by norm_num : (1 : ℝ) > 0.8)] at hy
  simp only at hy
  rw [show (0 : ℝ) * 2 + Real.pi / 2 = Real.pi / 2 by ring,
    Real.sin_pi_div_two] at hy
  norm_num at hy

/-- C1 (amended): the interpolation contract lerp(chaos, target, ease(t))
with ease(0) = 0 and ease(1) = 1 has no residual offset at either
endpoint, and at progress 0 the rendered position equals the chaos
position exactly for both the ornament and the foliage pipelines; at
progress 1, however, the rendered position equals the target position
plus the decorative y offset (the ornament wobble
sin(time * 2 + phase) * 0.05, active whenever raw progress exceeds 0.8,
and the foliage breathing term sin(time * 0.5 + random * 10) * 0.1
scaled by eased progress), rather than the target position exactly. -/
theorem rendered_position_endpoints :
    (∀ (chaos target : Vec3) (phase time : ℝ),
        ornamentRenderPos chaos target phase 0 time = chaos) ∧
    (∀ (chaos target : Vec3) (phase time : ℝ),
        ornamentRenderPos chaos target phase 1 time
          = ⟨target.x, target.y + Real.sin (time * 2 + phase) * 0.05,
              target.z⟩) ∧
    (∀ (chaos target : Vec3) (rand time : ℝ),
        foliageVertexPos chaos target rand 0 time = chaos) ∧
    (∀ (chaos target : Vec3) (rand time : ℝ),
        foliageVertexPos chaos target rand 1 time
          = ⟨target.x, target.y + Real.sin (time * 0.5 + rand * 10) * 0.1,
              target.z⟩) ∧
    ease 0 = 0 ∧ ease 1 = 1 ∧
    (∀ chaos target : Vec3,
        lerpV chaos target (ease 0) = chaos ∧
        lerpV chaos target (ease 1) = target) := by
  refine ⟨?_, ?_, ?_, ?_, by norm_num [ease], by norm_num [ease], ?_⟩
  · intro chaos target phase time
    simp only [ornamentRenderPos]
    rw [if_neg (by norm_num : ¬ (0 : ℝ) > 0.8)]
    ext <;> simp [lerpV, lerp, ease]
  · intro chaos target phase time
    simp only [ornamentRenderPos]
    rw [if_pos (by norm_num : (1 : ℝ) > 0.8)]
    ext <;> simp [lerpV, lerp, ease]
  · intro chaos target rand time
    ext <;> simp [foliageVertexPos, lerpV, lerp, ease]
  · intro chaos target rand time
    ext <;> simp [foliageVertexPos, lerpV, lerp, ease]
  · intro chaos target
    constructor <;> (ext <;> simp [lerpV, lerp, ease])

/-- C3 counterexample: a bell instance whose base-scale draw is at the
bottom of scaleRange = [0.25, 0.4], rendered at progress 0, has rendered
scale 0.25 * 0.8 = 0.2, strictly below the configured range. -/
theorem bell_rendered_scale_below_range :
    ornamentFinalScale (ornamentScale 0 bellScaleRange.1 bellScaleRange.2) 0
      < 0.25 := by
  norm_num [ornamentFinalScale, ornamentScale, bellScaleRange, ease]

/-- C3 (amended): for the 60-instance bell population with
scaleRange = [0.25, 0.4], the rendered scale ignoring pulse modulation is
base * (0.8 + 0.2 * ease(progress)) and therefore lies within
[0.8 * 0.25, 0.4] = [0.2, 0.4] for every draw and every progress in
[0, 1]; it lies within [0.25, 0.4] itself only where eased progress is 1. -/
theorem bell_rendered_scale_bounds :
    ∀ (u t : ℝ), 0 ≤ u → u < 1 → 0 ≤ t → t ≤ 1 →
      0.2 ≤ ornamentFinalScale
          (ornamentScale u bellScaleRange.1 bellScaleRange.2) t ∧
      ornamentFinalScale (ornamentScale u bellScaleRange.1 bellScaleRange.2) t
        ≤ 0.4 := by
  intro u t hu0 hu1 ht0 ht1
  simp only [ornamentFinalScale, ornamentScale, bellScaleRange, ease]
  have hs0 : (0 : ℝ) ≤ 1 - t := by linarith
  have hs1 : 1 - t ≤ 1 := by linarith
  have hsq : (1 - t) ^ 2 ≤ 1 := by nlinarith
  have hcube0 : (0 : ℝ) ≤ (1 - t) ^ 3 := by positivity
  have hcube1 : (1 - t) ^ 3 ≤ 1 := by nlinarith
  constructor <;> nlinarith

/-- C3 witness: the draw u = 0 at progress t = 1. -/
theorem bell_rendered_scale_bounds_witness :
    ((0 : ℝ) ≤ 0 ∧ (0 : ℝ) < 1 ∧ (0 : ℝ) ≤ 1 ∧ (1 : ℝ) ≤ 1) ∧
      0.2 ≤ ornamentFinalScale
          (ornamentScale 0 bellScaleRange.1 bellScaleRange.2) 1 ∧
      ornamentFinalScale (ornamentScale 0 bellScaleRange.1 bellScaleRange.2) 1
        ≤ 0.4 :=
  ⟨⟨le_refl 0, by norm_num, by norm_num, le_refl 1⟩,
    bell_rendered_scale_bounds 0 1 (le_refl 0) (by norm_num) (by norm_num)
      (le_refl 1)⟩

/-- One damp tick with attractor 0 or 1 keeps progress inside [0, 1]. -/
theorem damp_mem_unit (p y lam d : ℝ) (hp0 : 0 ≤ p) (hp1 : p ≤ 1)
    (hy : y = 0 ∨ y = 1) (hlam : 0 ≤ lam) (hd : 0 ≤ d) :
    0 ≤ damp p y lam d ∧ damp p y lam d ≤ 1 := by
  simp only [damp, lerp]
  have hE0 : 0 < Real.exp (-lam * d) := Real.exp_pos _
  have hE1 : Real.exp (-lam * d) ≤ 1 := by
    rw [← Real.exp_zero]
    exact Real.exp_le_exp.mpr (by nlinarith)
  rcases hy with h | h <;> subst h <;> constructor <;> nlinarith

/-- One damp tick with attractor 0 or 1, positive damping and positive
elapsed time keeps progress strictly inside (0, 1). -/
theorem damp_mem_open (p y lam d : ℝ) (hp0 : 0 < p) (hp1 : p < 1)
    (hy : y = 0 ∨ y = 1) (hlam : 0 < lam) (hd : 0 < d) :
    0 < damp p y lam d ∧ damp p y lam d < 1 := by
  simp only [damp, lerp]
  have hE0 : 0 < Real.exp (-lam * d) := Real.exp_pos _
  have hE1 : Real.exp (-lam * d) < 1 := Real.exp_lt_one_iff.mpr (by nlinarith)
  rcases hy with h | h <;> subst h <;> constructor <;> nlinarith

/-- One fixed-factor particle-field tick with attractor 0 or 1 keeps
progress inside [0, 1]. -/
theorem foliageProgressUpdate_mem_unit (p y d : ℝ) (hp0 : 0 ≤ p)
    (hp1 : p ≤ 1) (hy : y = 0 ∨ y = 1) :
    0 ≤ foliageProgressUpdate p y d ∧ foliageProgressUpdate p y d ≤ 1 := by
  simp only [foliageProgressUpdate, lerp]
  rcases hy with h | h <;> subst h <;> constructor <;> nlinarith

/-- One fixed-factor particle-field tick with attractor 0 or 1 keeps
progress strictly inside (0, 1). -/
theorem foliageProgressUpdate_mem_open (p y d : ℝ) (hp0 : 0 < p)
    (hp1 : p < 1) (hy : y = 0 ∨ y = 1) :
    0 < foliageProgressUpdate p y d ∧ foliageProgressUpdate p y d < 1 := by
  simp only [foliageProgressUpdate, lerp]
  rcases hy with h | h <;> subst h <;> constructor <;> nlinarith

/-- A finite sequence of damp ticks with attractors in {0, 1}, positive
damping and positive elapsed times keeps progress strictly inside (0, 1). -/
theorem dampTrajectory_mem_open (lam : ℝ) (hlam : 0 < lam) :
    ∀ (steps : List (ℝ × ℝ)) (p0 : ℝ), 0 < p0 → p0 < 1 →
      (∀ s ∈ steps, (s.1 = 0 ∨ s.1 = 1) ∧ 0 < s.2) →
      0 < dampTrajectory lam p0 steps ∧ dampTrajectory lam p0 steps < 1 := by
  intro steps
  induction steps with
  | nil =>
    intro p0 hp0 hp1 _
    simpa [dampTrajectory] using And.intro hp0 hp1
  | cons s ss ih =>
    intro p0 hp0 hp1 hmem
    have hstep := damp_mem_open p0 s.1 lam s.2 hp0 hp1
      (hmem s (List.mem_cons_self s ss)).1 hlam (hmem s (List.mem_cons_self s ss)).2
    simp only [dampTrajectory, List.foldl_cons] at ih ⊢
    exact ih (damp p0 s.1 lam s.2) hstep.1 hstep.2
      (fun x hx => hmem x (List.mem_cons_of_mem s hx))

/-- A finite sequence of fixed-factor particle-field ticks with
attractors in {0, 1} keeps progress strictly inside (0, 1). -/
theorem foliageTrajectory_mem_open :
    ∀ (steps : List (ℝ × ℝ)) (p0 : ℝ), 0 < p0 → p0 < 1 →
      (∀ s ∈ steps, s.1 = 0 ∨ s.1 = 1) →
      0 < foliageTrajectory p0 steps ∧ foliageTrajectory p0 steps < 1 := by
  intro steps
  induction steps with
  | nil =>
    intro p0 hp0 hp1 _
    simpa [foliageTrajectory] using And.intro hp0 hp1
  | cons s ss ih =>
    intro p0 hp0 hp1 hmem
    have hstep := foliageProgressUpdate_mem_open p0 s.1 s.2 hp0 hp1
      (hmem s (List.mem_cons_self s ss))
    simp only [foliageTrajectory, List.foldl_cons] at ih ⊢
    exact ih (foliageProgressUpdate p0 s.1 s.2) hstep.1 hstep.2
      (fun x hx => hmem x (List.mem_cons_of_mem s hx))

/-- One tree-lights tick with attractor 0 or 1 and frame delta at most 1
keeps progress inside [0, 1]. -/
theorem lightsProgressUpdate_mem_unit (p y d : ℝ) (hp0 : 0 ≤ p)
    (hp1 : p ≤ 1) (hy : y = 0 ∨ y = 1) (hd0 : 0 ≤ d) (hd1 : d ≤ 1) :
    0 ≤ lightsProgressUpdate p y d ∧ lightsProgressUpdate p y d ≤ 1 := by
  simp only [lightsProgressUpdate, lerp]
  rcases hy with h | h <;> subst h <;> constructor <;> nlinarith

/-- One tree-lights tick with attractor 0 or 1 and frame delta strictly
below 1 keeps progress strictly inside (0, 1). -/
theorem lightsProgressUpdate_mem_open (p y d : ℝ) (hp0 : 0 < p)
    (hp1 : p < 1) (hy : y = 0 ∨ y = 1) (hd0 : 0 ≤ d) (hd1 : d < 1) :
    0 < lightsProgressUpdate p y d ∧ lightsProgressUpdate p y d < 1 := by
  simp only [lightsProgressUpdate, lerp]
  rcases hy with h | h <;> subst h <;> constructor <;> nlinarith

/-- A finite sequence of tree-lights ticks with attractors in {0, 1} and
frame deltas in [0, 1) keeps progress strictly inside (0, 1). -/
theorem lightsTrajectory_mem_open :
    ∀ (steps : List (ℝ × ℝ)) (p0 : ℝ), 0 < p0 → p0 < 1 →
      (∀ s ∈ steps, (s.1 = 0 ∨ s.1 = 1) ∧ 0 ≤ s.2 ∧ s.2 < 1) →
      0 < lightsTrajectory p0 steps ∧ lightsTrajectory p0 steps < 1 := by
  intro steps
  induction steps with
  | nil =>
    intro p0 hp0 hp1 _
    simpa [lightsTrajectory] using And.intro hp0 hp1
  | cons s ss ih =>
    intro p0 hp0 hp1 hmem
    have hs := hmem s (List.mem_cons_self s ss)
    have hstep := lightsProgressUpdate_mem_open p0 s.1 s.2 hp0 hp1
      hs.1 hs.2.1 hs.2.2
    simp only [lightsTrajectory, List.foldl_cons] at ih ⊢
    exact ih (lightsProgressUpdate p0 s.1 s.2) hstep.1 hstep.2
      (fun x hx => hmem x (List.mem_cons_of_mem s hx))

/-- C6 counterexample: the tree-lights progress update uses the raw frame
delta as its lerp factor, so starting from progress 1/2 (strictly inside
(0, 1)) with attractor 1, a tick of elapsed time 1 second lands on
exactly 1, and a tick of 1.5 seconds overshoots to 1.25, leaving [0, 1]. -/
theorem lightsProgressUpdate_reaches_and_overshoots :
    lightsProgressUpdate (1 / 2) 1 1 = 1 ∧
      1 < lightsProgressUpdate (1 / 2) 1 (3 / 2) := by
  constructor <;> norm_num [lightsProgressUpdate, lerp]

/-- C6 (amended): the per-component progress scalar starts at 0, and for
the damp ticks of the instanced-mesh components and the fixed-factor
ticks of the Foliage and Snow particle fields every update with attractor
0 or 1 keeps it in [0, 1]; once strictly between 0 and 1 it never equals
exactly 0 or 1 after any finite number of such ticks.  The tree-lights
component, whose update is lerp(value, target, delta * 1.0), preserves
[0, 1] only when the frame delta is at most 1 and stays strictly inside
(0, 1) only when the frame delta is strictly below 1: at delta = 1 its
progress reaches the attractor exactly, and at larger deltas it leaves
[0, 1]. -/
theorem progress_invariant_unit_interval :
    (∀ (p y lam d : ℝ), 0 ≤ p → p ≤ 1 → (y = 0 ∨ y = 1) → 0 ≤ lam → 0 ≤ d →
        0 ≤ damp p y lam d ∧ damp p y lam d ≤ 1) ∧
    (∀ (p y d : ℝ), 0 ≤ p → p ≤ 1 → (y = 0 ∨ y = 1) →
        0 ≤ foliageProgressUpdate p y d ∧ foliageProgressUpdate p y d ≤ 1) ∧
    (∀ (p y d : ℝ), 0 ≤ p → p ≤ 1 → (y = 0 ∨ y = 1) → 0 ≤ d → d ≤ 1 →
        0 ≤ lightsProgressUpdate p y d ∧ lightsProgressUpdate p y d ≤ 1) ∧
    (∀ (lam p0 : ℝ) (steps : List (ℝ × ℝ)), 0 < lam → 0 < p0 → p0 < 1 →
        (∀ s ∈ steps, (s.1 = 0 ∨ s.1 = 1) ∧ 0 < s.2) →
        0 < dampTrajectory lam p0 steps ∧ dampTrajectory lam p0 steps < 1) ∧
    (∀ (p0 : ℝ) (steps : List (ℝ × ℝ)), 0 < p0 → p0 < 1 →
        (∀ s ∈ steps, s.1 = 0 ∨ s.1 = 1) →
        0 < foliageTrajectory p0 steps ∧ foliageTrajectory p0 steps < 1) ∧
    (∀ (p0 : ℝ) (steps : List (ℝ × ℝ)), 0 < p0 → p0 < 1 →
        (∀ s ∈ steps, (s.1 = 0 ∨ s.1 = 1) ∧ 0 ≤ s.2 ∧ s.2 < 1) →
        0 < lightsTrajectory p0 steps ∧ lightsTrajectory p0 steps < 1) :=
  ⟨damp_mem_unit, foliageProgressUpdate_mem_unit, lightsProgressUpdate_mem_unit,
    fun lam p0 steps hlam => dampTrajectory_mem_open lam hlam steps p0,
    fun p0 steps => foliageTrajectory_mem_open steps p0,
    fun p0 steps => lightsTrajectory_mem_open steps p0⟩

/-- C6 witness: a damp tick from progress 1/2 toward attractor 1 with
damping 1.2 over one second, a tree-lights tick over half a second, and
a strict damp trajectory of two ticks. -/
theorem progress_invariant_unit_interval_witness :
    ((0 : ℝ) ≤ 1 / 2 ∧ (1 / 2 : ℝ) ≤ 1 ∧ ((1 : ℝ) = 0 ∨ (1 : ℝ) = 1) ∧
        (0 : ℝ) ≤ 1.2 ∧ (0 : ℝ) ≤ 1 ∧
        0 ≤ damp (1 / 2) 1 1.2 1 ∧ damp (1 / 2) 1 1.2 1 ≤ 1) ∧
    ((0 : ℝ) ≤ 1 / 2 ∧ (1 / 2 : ℝ) ≤ 1 ∧
        0 ≤ lightsProgressUpdate (1 / 2) 1 (1 / 2) ∧
        lightsProgressUpdate (1 / 2) 1 (1 / 2) ≤ 1) ∧
    ((0 : ℝ) < 1.2 ∧ (0 : ℝ) < 1 / 2 ∧ (1 / 2 : ℝ) < 1 ∧
        (∀ s ∈ ([(1, 0.5), (0, 0.25)] : List (ℝ × ℝ)),
          (s.1 = 0 ∨ s.1 = 1) ∧ 0 < s.2) ∧
        0 < dampTrajectory 1.2 (1 / 2) [(1, 0.5), (0, 0.25)] ∧
        dampTrajectory 1.2 (1 / 2) [(1, 0.5), (0, 0.25)] < 1) :=
  by
  have hmem : ∀ s ∈ ([(1, 0.5), (0, 0.25)] : List (ℝ × ℝ)),
      (s.1 = 0 ∨ s.1 = 1) ∧ 0 < s.2 := by
    intro s hs
    simp only [List.mem_cons, List.mem_singleton] at hs
    rcases hs with h | h | h
    · rw [h]; exact ⟨Or.inr rfl, by norm_num⟩
    · rw [h]; exact ⟨Or.inl rfl, by norm_num⟩
    · cases h
  have h1 := progress_invariant_unit_interval.1 (1 / 2) 1 1.2 1 (by norm_num)
    (by norm_num) (Or.inr rfl) (by norm_num) (by norm_num)
  have h3 := progress_invariant_unit_interval.2.2.1 (1 / 2) 1 (1 / 2)
    (by norm_num) (by norm_num) (Or.inr rfl) (by norm_num) (by norm_num)
  have h2 := progress_invariant_unit_interval.2.2.2.1 1.2 (1 / 2)
    [(1, 0.5), (0, 0.25)] (by norm_num) (by norm_num) (by norm_num) hmem
  exact ⟨⟨by norm_num, by norm_num, Or.inr rfl, by norm_num, by norm_num,
      h1.1, h1.2⟩,
    ⟨by norm_num, by norm_num, h3.1, h3.2⟩,
    ⟨by norm_num, by norm_num, by norm_num, hmem, h2.1, h2.2⟩⟩

/-- The magnitude of a spherical-coordinate point is its radial distance. -/
theorem magV_spherical (r a b : ℝ) (hr : 0 ≤ r) :
    magV ⟨r * Real.sin a * Real.cos b, r * Real.sin a * Real.sin b,
        r * Real.cos a⟩ = r := by
  simp only [magV]
  have h1 := Real.sin_sq_add_cos_sq a
  have h2 := Real.sin_sq_add_cos_sq b
  have key : (r * Real.sin a * Real.cos b) ^ 2
      + (r * Real.sin a * Real.sin b) ^ 2 + (r * Real.cos a) ^ 2 = r ^ 2 := by
    linear_combination r ^ 2 * Real.sin a ^ 2 * h2 + r ^ 2 * h1
  rw [key, Real.sqrt_sq hr]

/-- C8: for every radius > 0 and all three uniform draws in [0, 1), the
point returned by randomSpherePoint has magnitude at most radius. -/
theorem randomSpherePoint_mag_le_radius :
    ∀ (radius u v w : ℝ), 0 < radius → 0 ≤ u → u < 1 → 0 ≤ v → v < 1 →
      0 ≤ w → w < 1 → magV (randomSpherePoint radius u v w) ≤ radius := by
  intro radius u v w hr hu0 hu1 hv0 hv1 hw0 hw1
  have hcbrt0 : 0 ≤ w ^ ((1 : ℝ) / 3) := Real.rpow_nonneg hw0 _
  have hcbrt1 : w ^ ((1 : ℝ) / 3) ≤ 1 :=
    Real.rpow_le_one hw0 (le_of_lt hw1) (by norm_num)
  have hrad0 : 0 ≤ w ^ ((1 : ℝ) / 3) * radius :=
    mul_nonneg hcbrt0 (le_of_lt hr)
  show magV ⟨w ^ ((1 : ℝ) / 3) * radius * Real.sin (Real.arccos (2 * v - 1))
        * Real.cos (2 * Real.pi * u),
      w ^ ((1 : ℝ) / 3) * radius * Real.sin (Real.arccos (2 * v - 1))
        * Real.sin (2 * Real.pi * u),
      w ^ ((1 : ℝ) / 3) * radius * Real.cos (Real.arccos (2 * v - 1))⟩
    ≤ radius
  rw [magV_spherical _ _ _ hrad0]
  nlinarith

/-- C8 witness: radius 1 with all three draws 0. -/
theorem randomSpherePoint_mag_le_radius_witness :
    ((0 : ℝ) < 1 ∧ (0 : ℝ) ≤ 0 ∧ (0 : ℝ) < 1) ∧
      magV (randomSpherePoint 1 0 0 0) ≤ 1 :=
  ⟨⟨by norm_num, le_refl 0, by norm_num⟩,
    randomSpherePoint_mag_le_radius 1 0 0 0 (by norm_num) (le_refl 0)
      (by norm_num) (le_refl 0) (by norm_num) (le_refl 0) (by norm_num)⟩

/-- The horizontal distance of a point at azimuth a and horizontal radius
r from the vertical axis is r. -/
theorem horizontal_dist (r a : ℝ) (hr : 0 ≤ r) :
    Real.sqrt ((r * Real.cos a) ^ 2 + (r * Real.sin a) ^ 2) = r := by
  have h := Real.sin_sq_add_cos_sq a
  have key : (r * Real.cos a) ^ 2 + (r * Real.sin a) ^ 2 = r ^ 2 := by
    nlinarith
  rw [key, Real.sqrt_sq hr]

/-- C9: for every baseRadius > 0, height > 0, any yOffset and both
uniform draws in [0, 1), the point returned by getTreeSurfacePosition has
its y coordinate in [yOffset, yOffset + height], and its horizontal
distance from the axis equals baseRadius * (1 - (y - yOffset) / height),
which tends to 0 as y tends to yOffset + height. -/
theorem getTreeSurfacePosition_bounds :
    ∀ (radiusBase height yOffset u v : ℝ), 0 < radiusBase → 0 < height →
      0 ≤ u → u < 1 → 0 ≤ v → v < 1 →
      yOffset ≤ (getTreeSurfacePosition radiusBase height yOffset u v).y ∧
      (getTreeSurfacePosition radiusBase height yOffset u v).y
        ≤ yOffset + height ∧
      Real.sqrt ((getTreeSurfacePosition radiusBase height yOffset u v).x ^ 2
          + (getTreeSurfacePosition radiusBase height yOffset u v).z ^ 2)
        = radiusBase * (1 -
            ((getTreeSurfacePosition radiusBase height yOffset u v).y
              - yOffset) / height) := by
  intro radiusBase height yOffset u v hrb hh hu0 hu1 hv0 hv1
  have hsu0 : 0 ≤ Real.sqrt u := Real.sqrt_nonneg u
  have hsu1 : Real.sqrt u < 1 := by
    have h := Real.sqrt_lt_sqrt hu0 hu1
    rwa [Real.sqrt_one] at h
  have hr0 : 0 ≤ radiusBase * (1 - (1 - Real.sqrt u)) := by nlinarith
  refine ⟨?_, ?_, ?_⟩
  · show yOffset ≤ height * (1 - Real.sqrt u) + yOffset
    nlinarith
  · show height * (1 - Real.sqrt u) + yOffset ≤ yOffset + height
    nlinarith
  · show Real.sqrt
        ((radiusBase * (1 - (1 - Real.sqrt u)) * Real.cos (v * (Real.pi * 2))) ^ 2
          + (radiusBase * (1 - (1 - Real.sqrt u))
              * Real.sin (v * (Real.pi * 2))) ^ 2)
      = radiusBase * (1 - (height * (1 - Real.sqrt u) + yOffset - yOffset)
          / height)
    rw [horizontal_dist _ _ hr0]
    field_simp

/-- C9 witness: baseRadius 1, height 1, yOffset 0, both draws 0. -/
theorem getTreeSurfacePosition_bounds_witness :
    ((0 : ℝ) < 1 ∧ (0 : ℝ) ≤ 0) ∧
      (0 ≤ (getTreeSurfacePosition 1 1 0 0 0).y ∧
        (getTreeSurfacePosition 1 1 0 0 0).y ≤ 0 + 1 ∧
        Real.sqrt ((getTreeSurfacePosition 1 1 0 0 0).x ^ 2
            + (getTreeSurfacePosition 1 1 0 0 0).z ^ 2)
          = 1 * (1 - ((getTreeSurfacePosition 1 1 0 0 0).y - 0) / 1)) :=
  ⟨⟨by norm_num, le_refl 0⟩,
    getTreeSurfacePosition_bounds 1 1 0 0 0 (by norm_num) (by norm_num)
      (le_refl 0) (by norm_num) (le_refl 0) (by norm_num)⟩

/-- Entries before the removed index keep their position and value. -/
theorem removePhoto_getElem_lt {α : Type} (l : List α) :
    ∀ (k j : ℕ), j < k → (removePhoto l k)[j]? = l[j]? := by
  induction l with
  | nil => intro k j _; simp [removePhoto]
  | cons x xs ih =>
    intro k j hjk
    cases k with
    | zero => omega
    | succ kk =>
      cases j with
      | zero => simp [removePhoto]
      | succ jj =>
        simp only [removePhoto, List.getElem?_cons_succ]
        exact ih kk jj (by omega)

/-- Entries after the removed index keep their value and shift down by
one position. -/
theorem removePhoto_getElem_ge {α : Type} (l : List α) :
    ∀ (k j : ℕ), k ≤ j → (removePhoto l k)[j]? = l[j + 1]? := by
  induction l with
  | nil => intro k j _; simp [removePhoto]
  | cons x xs ih =>
    intro k j hkj
    cases k with
    | zero => simp [removePhoto]
    | succ kk =>
      cases j with
      | zero => omega
      | succ jj =>
        simp only [removePhoto, List.getElem?_cons_succ]
        exact ih kk jj (by omega)

/-- Removing a present index shortens the population by one. -/
theorem removePhoto_length {α : Type} (l : List α) :
    ∀ k : ℕ, k < l.length → (removePhoto l k).length = l.length - 1 := by
  induction l with
  | nil => intro k hk; simp at hk
  | cons x xs ih =>
    intro k hk
    cases k with
    | zero => simp [removePhoto]
    | succ kk =>
      simp only [removePhoto, List.length_cons] at hk ⊢
      rw [ih kk (by omega)]
      omega

/-- C4: removing the photo card at index k leaves every surviving card's
stored record - the image reference that keys it, the chaos position
drawn once at mount, and the per-instance rotation offset and sway speed -
untouched: the surviving card formerly at index j reappears, as the very
same record, at index j when j < k and at index j - 1 when j > k, in a
population whose total count has dropped by one.  Only the card's index
and total (and hence its recomputed target position, a function of those
two slot inputs alone) change. -/
theorem removePhoto_preserves_survivor_records :
    ∀ (pop : List PolaroidCard) (k j : ℕ),
      k < pop.length → j < pop.length → j ≠ k →
      (removePhoto pop k).length = pop.length - 1 ∧
      (removePhoto pop k)[if j < k then j else j - 1]? = pop[j]? := by
  intro pop k j hk hj hne
  refine ⟨removePhoto_length pop k hk, ?_⟩
  by_cases hlt : j < k
  · rw [if_pos hlt]
    exact removePhoto_getElem_lt pop k j hlt
  · rw [if_neg hlt]
    have hkj : k < j := by omega
    have h1 : j - 1 + 1 = j := by omega
    have h2 := removePhoto_getElem_ge pop k (j - 1) (by omega)
    rwa [h1] at h2

/-- C4 witness: removing the middle card of the concrete three-card
population keeps the third card's record intact at its new index 1. -/
theorem removePhoto_preserves_survivor_records_witness :
    (1 < samplePopulation.length ∧ 2 < samplePopulation.length ∧ 2 ≠ 1) ∧
      (removePhoto samplePopulation 1).length = samplePopulation.length - 1 ∧
      (removePhoto samplePopulation 1)[if 2 < 1 then 2 else 2 - 1]?
        = samplePopulation[2]? :=
  ⟨⟨by simp [samplePopulation], by simp [samplePopulation], by norm_num⟩,
    removePhoto_preserves_survivor_records samplePopulation 1 2
      (by simp [samplePopulation]) (by simp [samplePopulation])
      (by norm_num)⟩

/-- The sine of 6.17 is small, because 6.17 lies within 0.114 of 2 pi. -/
theorem abs_sin_617 : |Real.sin 6.17| ≤ 0.114 := by
  have hper : Real.sin (6.17 - 2 * Real.pi) = Real.sin 6.17 :=
    Real.sin_sub_two_pi 6.17
  have hpi1 : 3.141592 < Real.pi := Real.pi_gt_d6
  have hpi2 : Real.pi < 3.141593 := Real.pi_lt_d6
  have ha0 : 6.17 - 2 * Real.pi < 0 := by nlinarith
  have ha1 : -0.114 < 6.17 - 2 * Real.pi := by nlinarith
  have hnonpos : Real.sin (6.17 - 2 * Real.pi) ≤ 0 :=
    Real.sin_nonpos_of_nonnpos_of_neg_pi_le (le_of_lt ha0) (by nlinarith)
  have hgt : 6.17 - 2 * Real.pi < Real.sin (6.17 - 2 * Real.pi) := by
    have h := Real.sin_lt
      (show (0 : ℝ) < -(6.17 - 2 * Real.pi) by nlinarith)
    rw [Real.sin_neg] at h
    linarith
  rw [← hper, abs_le]
  constructor <;> linarith

/-- The difference of the slot sines sin 12.34 and sin 24.68 is below
0.228 in absolute value, by the product formula for sine differences. -/
theorem abs_sin_diff_1234_2468 :
    |Real.sin 12.34 - Real.sin 24.68| ≤ 0.228 := by
  have h := Real.sin_sub_sin 12.34 24.68
  rw [show (12.34 - 24.68) / 2 = (-6.17 : ℝ) by norm_num,
    show (12.34 + 24.68) / 2 = (18.51 : ℝ) by norm_num, Real.sin_neg] at h
  have hs := abs_le.mp abs_sin_617
  have hc1 : -1 ≤ Real.cos 18.51 := Real.neg_one_le_cos 18.51
  have hc2 : Real.cos 18.51 ≤ 1 := Real.cos_le_one 18.51
  rw [h, abs_le]
  constructor <;>
    nlinarith [mul_nonneg
        (by linarith [hs.2] : (0 : ℝ) ≤ 0.114 - Real.sin 6.17)
        (by linarith : (0 : ℝ) ≤ 1 - Real.cos 18.51),
      mul_nonneg (by linarith [hs.1] : (0 : ℝ) ≤ 0.114 + Real.sin 6.17)
        (by linarith : (0 : ℝ) ≤ 1 + Real.cos 18.51),
      mul_nonneg (by linarith [hs.2] : (0 : ℝ) ≤ 0.114 - Real.sin 6.17)
        (by linarith : (0 : ℝ) ≤ 1 + Real.cos 18.51),
      mul_nonneg (by linarith [hs.1] : (0 : ℝ) ≤ 0.114 + Real.sin 6.17)
        (by linarith : (0 : ℝ) ≤ 1 - Real.cos 18.51)]

/-- The y coordinate of photo-card slot (index 2, total 3). -/
theorem polaroid_y_two_three :
    (polaroidTargetPos 2 3).y = Real.sin 24.68 - 1.6 := by
  simp only [polaroidTargetPos]
  push_cast
  rw [max_eq_left (by norm_num : (1 : ℝ) ≤ 3),
    show (2 : ℝ) * 12.34 = 24.68 by norm_num]
  ring_nf

/-- The y coordinate of photo-card slot (index 1, total 2). -/
theorem polaroid_y_one_two :
    (polaroidTargetPos 1 2).y = Real.sin 12.34 - 0.4 := by
  simp only [polaroidTargetPos]
  push_cast
  rw [max_eq_left (by norm_num : (1 : ℝ) ≤ 2),
    show (1 : ℝ) * 12.34 = 12.34 by norm_num]
  ring_nf

/-- The recomputed target of the card that keeps index 0 has the same
value whether the total is 3 or 2: the slot formula depends on the total
only through index / max(total, 1), which vanishes at index 0. -/
theorem polaroid_target_stable_index_zero :
    polaroidTargetPos 0 3 = polaroidTargetPos 0 2 := by
  ext <;>
    · simp only [polaroidTargetPos]
      push_cast
      norm_num

/-- The card whose index changes from 2 (of 3) to 1 (of 2) gets a changed
target value: the y coordinates of the two slots differ by
1.2 + sin 12.34 - sin 24.68, which is at least 1.2 - 0.228 > 0. -/
theorem polaroid_target_changed :
    polaroidTargetPos 2 3 ≠ polaroidTargetPos 1 2 := by
  intro h
  have hy := congrArg Vec3.y h
  rw [polaroid_y_two_three, polaroid_y_one_two] at hy
  have hb := abs_le.mp abs_sin_diff_1234_2468
  linarith [hb.1, hb.2]

/-- C5: starting from the photo population [a, b, c] at indices 0, 1, 2,
removing index 1 yields [a, c] with a still at index 0 and c now at
index 1; the target recompute changes c's target value (slots (2, 3) and
(1, 2) differ) while a's recomputed target value is unchanged (slot
(0, 3) equals slot (0, 2)). -/
theorem remove_middle_photo_retarget :
    (∀ a b c : String, removePhoto [a, b, c] 1 = [a, c]) ∧
    polaroidTargetPos 0 3 = polaroidTargetPos 0 2 ∧
    polaroidTargetPos 2 3 ≠ polaroidTargetPos 1 2 :=
  ⟨fun _ _ _ => rfl, polaroid_target_stable_index_zero,
    polaroid_target_changed⟩

end
